import Mathlib

/-!
Shallow embedding of `crates/bevy_sprite/src/texture_atlas_builder.rs`
(`TextureAtlasBuilder`): data model, the pixel-copy routines, the
size-search loop and `build`, together with theorems checking the
specification's claims against this code.

Machine integers (`u32`, `usize`) are modelled as `Nat`; the source uses
`saturating_sub` at the places where underflow is possible, which is `Nat`
truncated subtraction, and the remaining subtractions are underflow-free on
the inputs the code feeds them (noted at each site).  A Rust panic from a
slice index out of bounds is modelled as an explicit `none` / `panicked`
outcome.  The `rectangle_pack` crate and the renderer's `Image` type are
external to the repository; they are modelled from the spec as noted on
their definitions.
-/

set_option maxRecDepth 100000

namespace Atlas

/-- `bevy_math::UVec2`: a pair of `u32` coordinates, modelled as `Nat`. -/
structure UVec2 where
  x : Nat
  y : Nat
deriving DecidableEq

instance : Add UVec2 := ⟨fun a b => ⟨a.x + b.x, a.y + b.y⟩⟩

/-- Modelled from the spec: `wgpu::TextureFormat` is external to the
repository.  A format is an opaque tag plus the bytes-per-pixel that
`TextureFormatPixelInfo::pixel_size` reports for it; formats compare by
equality, as in the source. -/
structure TextureFormat where
  tag : Nat
  pixelSize : Nat
deriving DecidableEq

/-- Modelled from the spec: `bevy_render::texture::Image` is external to the
repository.  Only the parts the builder reads are kept: dimensions, the
descriptor's pixel format, and the raw byte buffer (`data`). -/
structure Image where
  width : Nat
  height : Nat
  format : TextureFormat
  data : List Nat
deriving DecidableEq

/-- `Image::new` as called by `build` (lines 283-296 of the source): a
zero-filled buffer of `pixel_size * (width * height)` bytes. -/
def Image.zeroed (w h : Nat) (fmt : TextureFormat) : Image :=
  ⟨w, h, fmt, List.replicate (fmt.pixelSize * (w * h)) 0⟩

/-- `crate::TextureAtlasSettings` (declared outside the excerpt; fields are
exactly the ones `build` reads). -/
structure TextureAtlasSettings where
  min_size : UVec2
  max_size : UVec2
  padding : UVec2
  margin : UVec2
  convert_format : Option TextureFormat

/-- `rectangle_pack::PackedLocation` as read by the builder: bin-local
position plus the width/height of the rect as it was inserted (the crate
reports back the inserted dimensions). -/
structure PackedLocation where
  x : Nat
  y : Nat
  width : Nat
  height : Nat
deriving DecidableEq

structure URect where
  min : UVec2
  max : UVec2
deriving DecidableEq

structure TextureAtlasLayout where
  size : UVec2
  textures : List URect
deriving DecidableEq

inductive TextureAtlasBuilderError where
  | NotEnoughSpace
  | WrongFormat
deriving DecidableEq

/-- Outcome of one call to `build`: a value result, an error result, or a
Rust panic (from an out-of-bounds slice index in the copy step). -/
inductive BuildResult where
  | ok (layout : TextureAtlasLayout) (sources : List (Nat × Nat)) (atlas : Image)
  | err (e : TextureAtlasBuilderError)
  | panicked
deriving DecidableEq

/-- A rectangle handed to the packer: `(width, height)` after inflation by
padding, tagged implicitly by its list position (the registration index). -/
abbrev RectSpec := Nat × Nat

/-- A placement returned by the packer: bin-local `(x, y)` for the rect at
the same list position. -/
abbrev Placement := Nat × Nat

/-- Modelled from the spec: the `rectangle_pack` crate is external to the
repository.  A packer takes the inflated rects and a candidate bin size and
either places every rect (same order as its input) or reports insufficient
space; zero rects trivially succeed. -/
abbrev Packer := List RectSpec → Nat → Nat → Option (List Placement)

/-- Modelled from the spec: `Image::convert` (external) either yields a new
image in the requested format or reports that the conversion is
unsupported. -/
abbrev Converter := Image → TextureFormat → Option Image

/-- One `copy_from_slice` of the source (lines 116-117): write `len` bytes
taken from `src` at `sstart` into `dst` at `start`.  Rust panics when either
range leaves its buffer; that is the `none` case. -/
def copyRow (dst : List Nat) (start : Nat) (src : List Nat) (sstart len : Nat) :
    Option (List Nat) :=
  if start + len ≤ dst.length ∧ sstart + len ≤ src.length then
    some (dst.take start ++ (src.drop sstart).take len ++ dst.drop (start + len))
  else
    none

/-- `TextureAtlasBuilder::copy_texture_to_atlas` (lines 98-119): row-by-row
copy of the texture into the atlas buffer at the packed location.  The
subtractions `width - padding.x` / `height - padding.y` never underflow on
the locations `build` produces (the rect was inflated by exactly that
padding). -/
def copy_texture_to_atlas (atlas_texture : Image) (texture : Image)
    (packed_location : PackedLocation) (padding : UVec2) : Option Image :=
  let rect_width := packed_location.width - padding.x
  let rect_height := packed_location.height - padding.y
  let rect_x := packed_location.x
  let rect_y := packed_location.y
  let atlas_width := atlas_texture.width
  let format_size := atlas_texture.format.pixelSize
  (List.range rect_height).foldlM
    (fun (img : Image) texture_y =>
      let bound_y := rect_y + texture_y
      let b := (bound_y * atlas_width + rect_x) * format_size
      let texture_begin := texture_y * rect_width * format_size
      (copyRow img.data b texture.data texture_begin (rect_width * format_size)).map
        (fun d => { img with data := d }))
    atlas_texture

/-- `TextureAtlasBuilder::copy_converted_texture` (lines 121-152): copy
directly when the formats agree, otherwise convert first; when the
conversion is unsupported, log and skip — the atlas is returned unchanged
and no failure is signalled. -/
def copy_converted_texture (convert : Converter) (padding : UVec2)
    (atlas_texture : Image) (texture : Image) (packed_location : PackedLocation)
    (convert_format : TextureFormat) : Option Image :=
  if convert_format = texture.format then
    copy_texture_to_atlas atlas_texture texture packed_location padding
  else
    match convert texture convert_format with
    | some converted_texture =>
        copy_texture_to_atlas atlas_texture converted_texture packed_location padding
    | none => some atlas_texture

/-- Format unification (lines 216-238): a forced format wins; otherwise the
first registered image's format must be shared by all the rest; `none`
means the `WrongFormat` error. -/
def unified_format (settings : TextureAtlasSettings)
    (textures : List (Option Nat × Image)) : Option TextureFormat :=
  match settings.convert_format with
  | some format => some format
  | none =>
    match textures with
    | [] => none
    | (_, image) :: rest =>
        if rest.all (fun t => t.2.format = image.format) then some image.format else none

/-- The rects handed to the packer (lines 241-251): each texture inflated by
`padding` on both axes, in registration order. -/
def rect_specs (settings : TextureAtlasSettings)
    (textures : List (Option Nat × Image)) : List RectSpec :=
  textures.map (fun t => (t.2.width + settings.padding.x, t.2.height + settings.padding.y))

/-- The size-search loop (lines 253-309), with the candidate sizes it
attempts collected as a trace.  The result is `none` when the fuel runs out
with the loop still running (the Rust loop has no fuel; a `none` for every
fuel is a non-terminating run), `some (none, trace)` when the loop exits
without a placement, and `some (some (w, h, locs), trace)` when packing
succeeded at candidate `(w, h)`. -/
def search_loop (pack : Nat → Nat → Option (List Placement)) (maxW maxH : Nat) :
    Nat → Nat → Nat → Option (Option (Nat × Nat × List Placement) × List (Nat × Nat))
  | 0, _, _ => none
  | fuel + 1, w, h =>
    if w > maxW ∨ h > maxH then
      some (none, [])
    else
      match pack w h with
      | some locs => some (some (w, h, locs), [(w, h)])
      | none =>
        let w2 := min (w * 2) maxW
        let h2 := min (h * 2) maxH
        if h = maxH ∧ w = maxW then
          some (none, [(w, h)])
        else
          match search_loop pack maxW maxH fuel w2 h2 with
          | none => none
          | some (r, trace) => some (r, (w, h) :: trace)

/-- The final atlas size (lines 268-282), computed from the successful
candidate: when at least one image is registered the padding is trimmed
(clamped to `min_size`), then the margin is added on both sides.  The
source uses `padding.x` in the height trim and `margin.x` in the height
addition; this is kept exactly as written. -/
def final_size (settings : TextureAtlasSettings) (nonempty : Bool) (cw ch : Nat) :
    Nat × Nat :=
  let w := if nonempty then max (cw - settings.padding.x) settings.min_size.x else cw
  let h := if nonempty then max (ch - settings.padding.x) settings.min_size.y else ch
  (w + 2 * settings.margin.x, h + 2 * settings.margin.x)

/-- `HashMap::insert` on the identifier map, modelled as an association list
with overwrite semantics. -/
def map_insert (m : List (Nat × Nat)) (k v : Nat) : List (Nat × Nat) :=
  (k, v) :: m.filter (fun p => p.1 ≠ k)

def map_lookup : List (Nat × Nat) → Nat → Option Nat
  | [], _ => none
  | (a, v) :: m, k => if a = k then some v else map_lookup m k

/-- The destination rectangle stored in the layout (lines 319-321):
`min = margin + position`, `max = min + (width, height) - padding`.  The
subtraction never underflows on the locations `build` produces. -/
def make_rect (margin padding : UVec2) (loc : PackedLocation) : URect :=
  let mn : UVec2 := ⟨margin.x + loc.x, margin.y + loc.y⟩
  ⟨mn, ⟨mn.x + loc.width - padding.x, mn.y + loc.height - padding.y⟩⟩

/-- The identifier-map update of one assembly iteration (lines 322-324):
images registered with an identifier insert `identifier ↦ index`. -/
def step_ids (ids : List (Nat × Nat)) (image_id : Option Nat) (index : Nat) :
    List (Nat × Nat) :=
  match image_id with
  | some iid => map_insert ids iid index
  | none => ids

/-- The per-image assembly loop (lines 316-332), carried out in registration
order with explicit accumulators: destination rectangles, identifier map and
the atlas buffer being blitted into.  A missing location (`unwrap`) or an
out-of-bounds copy is a panic (`none`). -/
def assemble_go (convert : Converter) (margin padding : UVec2) (fmt : TextureFormat)
    (locs : Nat → Option PackedLocation) :
    List (Option Nat × Image) → Nat → List URect → List (Nat × Nat) → Image →
    Option (List URect × List (Nat × Nat) × Image)
  | [], _, rects, ids, atlas => some (rects, ids, atlas)
  | (image_id, texture) :: rest, index, rects, ids, atlas =>
    (locs index).bind (fun loc =>
      (copy_converted_texture convert padding atlas texture loc fmt).bind (fun atlas2 =>
        assemble_go convert margin padding fmt locs rest (index + 1)
          (rects ++ [make_rect margin padding loc]) (step_ids ids image_id index) atlas2))

def assemble (convert : Converter) (margin padding : UVec2) (fmt : TextureFormat)
    (textures : List (Option Nat × Image)) (locs : Nat → Option PackedLocation)
    (atlas0 : Image) : Option (List URect × List (Nat × Nat) × Image) :=
  assemble_go convert margin padding fmt locs textures 0 [] [] atlas0

/-- The identifier map the assembly loop accumulates, in isolation: one
`HashMap::insert` per image registered with an identifier, keyed by
insertion index. -/
def collect_ids : List (Option Nat × Image) → Nat → List (Nat × Nat) → List (Nat × Nat)
  | [], _, ids => ids
  | (some iid, _) :: rest, k, ids => collect_ids rest (k + 1) (map_insert ids iid k)
  | (none, _) :: rest, k, ids => collect_ids rest (k + 1) ids

/-- `TextureAtlasBuilder::build` (lines 200-342).  `fuel` bounds the
size-search loop (which the Rust code runs unboundedly); a `none` result
means the loop was still running when the fuel ran out. -/
def buildTA (packer : Packer) (convert : Converter) (fuel : Nat)
    (settings : TextureAtlasSettings) (textures : List (Option Nat × Image)) :
    Option BuildResult :=
  let maxW := (settings.max_size.x + settings.padding.x) - 2 * settings.margin.x
  let maxH := (settings.max_size.y + settings.padding.y) - 2 * settings.margin.y
  match unified_format settings textures with
  | none => some (.err .WrongFormat)
  | some fmt =>
    let rects := rect_specs settings textures
    match search_loop (fun w h => packer rects w h) maxW maxH fuel
        settings.min_size.x settings.min_size.y with
    | none => none
    | some (none, _) => some (.err .NotEnoughSpace)
    | some (some (cw, ch, pls), _) =>
      let fs := final_size settings (!textures.isEmpty) cw ch
      let atlas0 := Image.zeroed fs.1 fs.2 fmt
      let locs : Nat → Option PackedLocation := fun i =>
        match pls.get? i, rects.get? i with
        | some xy, some wh => some ⟨xy.1, xy.2, wh.1, wh.2⟩
        | _, _ => none
      match assemble convert settings.margin settings.padding fmt textures locs atlas0 with
      | none => some .panicked
      | some (texture_rects, texture_ids, atlas) =>
          some (.ok ⟨⟨fs.1, fs.2⟩, texture_rects⟩ texture_ids atlas)

/-- A concrete packer used for concrete runs: stack every rect in a single
left-aligned column, top to bottom, failing when a rect is wider than the
bin or the column outgrows it.  (On the concrete inputs below its
placements coincide with the only placements any packer satisfying the
spec's contract could produce, as noted at each use.) -/
def vert_pack_go (w h : Nat) : List RectSpec → Nat → Option (List Placement)
  | [], _ => some []
  | r :: rest, y =>
    if r.1 ≤ w ∧ y + r.2 ≤ h then
      (vert_pack_go w h rest (y + r.2)).map (fun ps => (0, y) :: ps)
    else
      none

def vert_pack : Packer := fun rects w h => vert_pack_go w h rects 0

/-- A converter that supports no conversion at all. -/
def no_convert : Converter := fun _ _ => none

/-- `build` terminates: some fuel suffices for the size-search loop to
exit.  (The Rust loop is unbounded, so a configuration on which this fails
is an infinite loop of the source.) -/
def build_terminates (packer : Packer) (convert : Converter)
    (settings : TextureAtlasSettings) (textures : List (Option Nat × Image)) : Prop :=
  ∃ fuel, (buildTA packer convert fuel settings textures).isSome

/-- Projection helpers for stating concrete-run facts. -/
def layout_of : Option BuildResult → Option TextureAtlasLayout
  | some (.ok l _ _) => some l
  | _ => none

def sources_of : Option BuildResult → Option (List (Nat × Nat))
  | some (.ok _ s _) => some s
  | _ => none

def atlas_data_of : Option BuildResult → Option (List Nat)
  | some (.ok _ _ img) => some img.data
  | _ => none

/-- The index ("last wins") that `HashMap::insert` in the assembly loop
leaves an identifier mapped to: the position of the last registered image
bearing that identifier. -/
def last_idx (key : Nat) : List (Option Nat × Image) → Option Nat
  | [] => none
  | (image_id, _) :: rest =>
    match last_idx key rest with
    | some j => some (j + 1)
    | none => if image_id = some key then some 0 else none

/-! ### Concrete inputs for the concrete-run theorems -/

/-- A one-byte-per-pixel format for concrete runs. -/
def fmt1 : TextureFormat := ⟨0, 1⟩

def c1_settings : TextureAtlasSettings := ⟨⟨4, 4⟩, ⟨100, 100⟩, ⟨0, 0⟩, ⟨3, 5⟩, some fmt1⟩
def c1_images : List (Option Nat × Image) := [(none, ⟨2, 2, fmt1, [1, 2, 3, 4]⟩)]

def c2_settings : TextureAtlasSettings := ⟨⟨1, 1⟩, ⟨100, 100⟩, ⟨0, 0⟩, ⟨2, 3⟩, some fmt1⟩
def c2_images : List (Option Nat × Image) := [(none, ⟨1, 1, fmt1, [7]⟩)]
def c2_run : Option BuildResult := buildTA vert_pack no_convert 10 c2_settings c2_images

def c3_settings : TextureAtlasSettings := ⟨⟨9, 9⟩, ⟨12, 12⟩, ⟨5, 5⟩, ⟨2, 2⟩, some fmt1⟩
def c3_images : List (Option Nat × Image) := [(none, ⟨1, 1, fmt1, [9]⟩)]

def c4_settings : TextureAtlasSettings := ⟨⟨0, 3⟩, ⟨5, 3⟩, ⟨0, 0⟩, ⟨0, 0⟩, some fmt1⟩
def c4_images : List (Option Nat × Image) := [(none, ⟨1, 1, fmt1, [1]⟩)]

def c6_settings : TextureAtlasSettings := ⟨⟨0, 4⟩, ⟨3, 4⟩, ⟨0, 0⟩, ⟨0, 0⟩, some fmt1⟩
def c6_images : List (Option Nat × Image) := [(none, ⟨5, 1, fmt1, [1, 1, 1, 1, 1]⟩)]

def c8_settings : TextureAtlasSettings := ⟨⟨1, 2⟩, ⟨10, 10⟩, ⟨0, 0⟩, ⟨0, 0⟩, some fmt1⟩
def c8_images : List (Option Nat × Image) :=
  [(some 5, ⟨1, 1, fmt1, [3]⟩), (some 5, ⟨1, 1, fmt1, [4]⟩)]

def c10_settings : TextureAtlasSettings := ⟨⟨4, 4⟩, ⟨8, 9⟩, ⟨2, 0⟩, ⟨0, 0⟩, some fmt1⟩
def c10_image : Image := ⟨5, 3, fmt1, List.replicate 15 2⟩
def c10_images : List (Option Nat × Image) :=
  [(none, c10_image), (none, c10_image), (none, c10_image)]

/-! ### Lemmas about the size-search loop -/

/-- A state the loop cannot leave: the guard does not fire, packing fails,
this is not the last attempt, and doubling-with-clamp reproduces the same
candidate.  From such a state the loop runs forever (`none` for every
fuel). -/
theorem search_loop_stuck (pack : Nat → Nat → Option (List Placement)) (maxW maxH w h : Nat)
    (hg : ¬ (w > maxW ∨ h > maxH)) (hp : pack w h = none)
    (hl : ¬ (h = maxH ∧ w = maxW))
    (hw : min (w * 2) maxW = w) (hh : min (h * 2) maxH = h) :
    ∀ fuel, search_loop pack maxW maxH fuel w h = none := by
  intro fuel
  induction fuel with
  | zero => rfl
  | succ n ih => simp only [search_loop, hp, hw, hh, if_neg hg, if_neg hl, ih]

/-- When the format resolves but the loop is still running after `fuel`
iterations, `build` has produced nothing. -/
theorem buildTA_of_loop_none (packer : Packer) (convert : Converter) (fuel : Nat)
    (settings : TextureAtlasSettings) (textures : List (Option Nat × Image))
    (fmt : TextureFormat) (hfmt : unified_format settings textures = some fmt)
    (hloop : search_loop (fun w h => packer (rect_specs settings textures) w h)
      ((settings.max_size.x + settings.padding.x) - 2 * settings.margin.x)
      ((settings.max_size.y + settings.padding.y) - 2 * settings.margin.y)
      fuel settings.min_size.x settings.min_size.y = none) :
    buildTA packer convert fuel settings textures = none := by
  simp only [buildTA, hfmt, hloop]

/-- When the format resolves and the loop exits without a placement,
`build` returns the `NotEnoughSpace` error value. -/
theorem buildTA_of_loop_fail (packer : Packer) (convert : Converter) (fuel : Nat)
    (settings : TextureAtlasSettings) (textures : List (Option Nat × Image))
    (fmt : TextureFormat) (tr : List (Nat × Nat))
    (hfmt : unified_format settings textures = some fmt)
    (hloop : search_loop (fun w h => packer (rect_specs settings textures) w h)
      ((settings.max_size.x + settings.padding.x) - 2 * settings.margin.x)
      ((settings.max_size.y + settings.padding.y) - 2 * settings.margin.y)
      fuel settings.min_size.x settings.min_size.y = some (none, tr)) :
    buildTA packer convert fuel settings textures = some (.err .NotEnoughSpace) := by
  simp only [buildTA, hfmt, hloop]

/-- With positive candidate components the loop always exits: the clamped
doubling strictly shrinks `(maxW - w) + (maxH - h)` until the guard, a
successful packing, or the final attempt at the maximum ends the loop. -/
theorem search_loop_total (pack : Nat → Nat → Option (List Placement)) (maxW maxH : Nat) :
    ∀ fuel w h, 1 ≤ w → 1 ≤ h → (maxW - w) + (maxH - h) < fuel →
      (search_loop pack maxW maxH fuel w h).isSome := by
  intro fuel
  induction fuel with
  | zero => intro w h _ _ hm; omega
  | succ n ih =>
    intro w h hw hh hm
    rw [search_loop]
    by_cases hg : w > maxW ∨ h > maxH
    · rw [if_pos hg]; rfl
    · rw [if_neg hg]
      cases hp : pack w h with
      | some locs => rfl
      | none =>
        by_cases hl : h = maxH ∧ w = maxW
        · simp only [if_pos hl]; rfl
        · simp only [if_neg hl]
          have hmeas : (maxW - min (w * 2) maxW) + (maxH - min (h * 2) maxH) < n := by
            push_neg at hg hl
            rcases Nat.eq_or_lt_of_le hg.1 with hweq | hwlt
            · have hhlt : h < maxH := by
                rcases Nat.eq_or_lt_of_le hg.2 with hheq | hhlt
                · exact absurd hweq (hl hheq)
                · exact hhlt
              omega
            · omega
          have h2 := ih (min (w * 2) maxW) (min (h * 2) maxH) (by omega) (by omega) hmeas
          cases hrec : search_loop pack maxW maxH n (min (w * 2) maxW) (min (h * 2) maxH) with
          | none => rw [hrec] at h2; simp at h2
          | some pr => cases pr with | mk r tr => rfl

/-- Any successful exit of the loop happened at a candidate no smaller than
the start and no larger than the maximum, and the packer accepted exactly
that candidate. -/
theorem search_loop_success_bounds (pack : Nat → Nat → Option (List Placement)) (maxW maxH : Nat) :
    ∀ fuel w h cw ch locs tr,
      search_loop pack maxW maxH fuel w h = some (some (cw, ch, locs), tr) →
      w ≤ cw ∧ h ≤ ch ∧ cw ≤ maxW ∧ ch ≤ maxH ∧ pack cw ch = some locs := by
  intro fuel
  induction fuel with
  | zero => intro w h cw ch locs tr hs; exact absurd hs (by simp [search_loop])
  | succ n ih =>
    intro w h cw ch locs tr hs
    rw [search_loop] at hs
    by_cases hg : w > maxW ∨ h > maxH
    · rw [if_pos hg] at hs; simp at hs
    · rw [if_neg hg] at hs
      push_neg at hg
      cases hp : pack w h with
      | some l =>
        rw [hp] at hs
        simp only [Option.some.injEq, Prod.mk.injEq] at hs
        obtain ⟨⟨hw1, hh1, hl1⟩, -⟩ := hs
        subst hw1; subst hh1; subst hl1
        exact ⟨le_refl _, le_refl _, hg.1, hg.2, hp⟩
      | none =>
        rw [hp] at hs
        by_cases hl : h = maxH ∧ w = maxW
        · simp only [if_pos hl] at hs; simp at hs
        · simp only [if_neg hl] at hs
          cases hrec : search_loop pack maxW maxH n (min (w * 2) maxW) (min (h * 2) maxH) with
          | none => rw [hrec] at hs; simp at hs
          | some pr =>
            rw [hrec] at hs
            obtain ⟨r, tr'⟩ := pr
            simp only [Option.some.injEq, Prod.mk.injEq] at hs
            obtain ⟨hr, -⟩ := hs
            subst hr
            obtain ⟨h1, h2, h3, h4, h5⟩ :=
              ih (min (w * 2) maxW) (min (h * 2) maxH) cw ch locs tr' hrec
            exact ⟨by omega, by omega, h3, h4, h5⟩

/-- If the packer rejects every candidate within the maximum, the loop never
exits successfully. -/
theorem search_loop_all_fail (pack : Nat → Nat → Option (List Placement)) (maxW maxH : Nat)
    (hfail : ∀ u v, u ≤ maxW → v ≤ maxH → pack u v = none) :
    ∀ fuel w h r tr, search_loop pack maxW maxH fuel w h = some (r, tr) → r = none := by
  intro fuel
  induction fuel with
  | zero => intro w h r tr hs; exact absurd hs (by simp [search_loop])
  | succ n ih =>
    intro w h r tr hs
    rw [search_loop] at hs
    by_cases hg : w > maxW ∨ h > maxH
    · rw [if_pos hg] at hs
      simp only [Option.some.injEq, Prod.mk.injEq] at hs
      exact hs.1.symm
    · rw [if_neg hg] at hs
      push_neg at hg
      rw [hfail w h hg.1 hg.2] at hs
      by_cases hl : h = maxH ∧ w = maxW
      · simp only [if_pos hl] at hs
        simp only [Option.some.injEq, Prod.mk.injEq] at hs
        exact hs.1.symm
      · simp only [if_neg hl] at hs
        cases hrec : search_loop pack maxW maxH n (min (w * 2) maxW) (min (h * 2) maxH) with
        | none => rw [hrec] at hs; simp at hs
        | some pr =>
          rw [hrec] at hs
          obtain ⟨r', tr'⟩ := pr
          simp only [Option.some.injEq, Prod.mk.injEq] at hs
          obtain ⟨hr, -⟩ := hs
          subst hr
          exact ih _ _ _ _ hrec

/-- The candidate equal to the maximum is attempted at most once in any run
of the loop. -/
theorem search_loop_max_once (pack : Nat → Nat → Option (List Placement)) (maxW maxH : Nat) :
    ∀ fuel w h r tr, search_loop pack maxW maxH fuel w h = some (r, tr) →
      tr.count (maxW, maxH) ≤ 1 := by
  intro fuel
  induction fuel with
  | zero => intro w h r tr hs; exact absurd hs (by simp [search_loop])
  | succ n ih =>
    intro w h r tr hs
    rw [search_loop] at hs
    by_cases hg : w > maxW ∨ h > maxH
    · rw [if_pos hg] at hs
      simp only [Option.some.injEq, Prod.mk.injEq] at hs
      obtain ⟨-, ht⟩ := hs
      subst ht; simp
    · rw [if_neg hg] at hs
      cases hp : pack w h with
      | some l =>
        rw [hp] at hs
        simp only [Option.some.injEq, Prod.mk.injEq] at hs
        obtain ⟨-, ht⟩ := hs
        subst ht
        exact le_trans (List.count_le_length _ _) (by simp)
      | none =>
        rw [hp] at hs
        by_cases hl : h = maxH ∧ w = maxW
        · simp only [if_pos hl] at hs
          simp only [Option.some.injEq, Prod.mk.injEq] at hs
          obtain ⟨-, ht⟩ := hs
          subst ht
          exact le_trans (List.count_le_length _ _) (by simp)
        · simp only [if_neg hl] at hs
          cases hrec : search_loop pack maxW maxH n (min (w * 2) maxW) (min (h * 2) maxH) with
          | none => rw [hrec] at hs; simp at hs
          | some pr =>
            rw [hrec] at hs
            obtain ⟨r', tr'⟩ := pr
            simp only [Option.some.injEq, Prod.mk.injEq] at hs
            obtain ⟨-, ht⟩ := hs
            subst ht
            have hne : (maxW, maxH) ≠ (w, h) := by
              intro he
              injection he with he1 he2
              exact hl ⟨he2.symm, he1.symm⟩
            rw [List.count_cons_of_ne hne]
            exact ih _ _ _ _ hrec

/-! ### Lemmas about the assembly loop -/

/-- Lookup after an overwriting insert. -/
theorem map_lookup_insert (m : List (Nat × Nat)) (k v key : Nat) :
    map_lookup (map_insert m k v) key = if k = key then some v else map_lookup m key := by
  simp only [map_insert, map_lookup]
  by_cases h : k = key
  · rw [if_pos h, if_pos h]
  · rw [if_neg h, if_neg h]
    induction m with
    | nil => rfl
    | cons a m ih =>
      obtain ⟨a1, a2⟩ := a
      by_cases hak : a1 = k
      · rw [List.filter_cons_of_neg (by simpa using hak)]
        rw [ih]
        have : ¬ a1 = key := fun hc => h (hak ▸ hc.symm).symm
        simp only [map_lookup, if_neg this]
      · rw [List.filter_cons_of_pos (by simpa using hak)]
        simp only [map_lookup, ih]

/-- Lookup in the accumulated identifier map: the last image registered with
a key wins; keys never registered fall through to the initial map. -/
theorem map_lookup_collect_ids (textures : List (Option Nat × Image)) :
    ∀ k ids key, map_lookup (collect_ids textures k ids) key =
      match last_idx key textures with
      | some j => some (k + j)
      | none => map_lookup ids key := by
  induction textures with
  | nil => intro k ids key; rfl
  | cons t rest ih =>
    intro k ids key
    obtain ⟨tid, timg⟩ := t
    cases tid with
    | some iid =>
      rw [collect_ids, ih (k + 1) (map_insert ids iid k) key, last_idx]
      cases hl : last_idx key rest with
      | some j =>
        simp only []
        congr 1
        omega
      | none =>
        simp only [map_lookup_insert]
        by_cases he : iid = key
        · subst he
          simp
        · rw [if_neg he, if_neg (by simpa using he)]
    | none =>
      rw [collect_ids, ih (k + 1) ids key, last_idx]
      cases hl : last_idx key rest with
      | some j =>
        simp only []
        congr 1
        omega
      | none => simp

/-- Structure of a successful assembly run: the rectangle list extends the
accumulator by one `make_rect` per image, in registration order and indexed
from the accumulator's length, and the identifier map is the accumulated
`collect_ids`. -/
theorem assemble_go_spec (convert : Converter) (margin padding : UVec2)
    (fmt : TextureFormat) (locs : Nat → Option PackedLocation) :
    ∀ (textures : List (Option Nat × Image)) (k : Nat) (rects0 : List URect)
      (ids0 : List (Nat × Nat)) (atlas0 : Image) (rects : List URect)
      (ids : List (Nat × Nat)) (atlas : Image),
      assemble_go convert margin padding fmt locs textures k rects0 ids0 atlas0 =
        some (rects, ids, atlas) →
      rects.length = rects0.length + textures.length ∧
      (∀ i, i < rects0.length → rects.get? i = rects0.get? i) ∧
      (∀ i t, textures.get? i = some t →
        ∃ loc, locs (k + i) = some loc ∧
          rects.get? (rects0.length + i) = some (make_rect margin padding loc)) ∧
      ids = collect_ids textures k ids0 := by
  intro textures
  induction textures with
  | nil =>
    intro k rects0 ids0 atlas0 rects ids atlas hA
    simp only [assemble_go, Option.some.injEq, Prod.mk.injEq] at hA
    obtain ⟨h1, h2, h3⟩ := hA
    subst h1; subst h2; subst h3
    refine ⟨by simp, fun i _ => rfl, fun i t ht => by simp at ht, rfl⟩
  | cons t rest ih =>
    intro k rects0 ids0 atlas0 rects ids atlas hA
    obtain ⟨tid, timg⟩ := t
    rw [assemble_go] at hA
    cases hloc : locs k with
    | none => rw [hloc] at hA; exact absurd hA (by simp)
    | some loc =>
      rw [hloc] at hA
      simp only [Option.some_bind] at hA
      cases hcp : copy_converted_texture convert padding atlas0 timg loc fmt with
      | none => rw [hcp] at hA; exact absurd hA (by simp)
      | some atlas2 =>
        rw [hcp] at hA
        simp only [Option.some_bind] at hA
        obtain ⟨hlen, hpre, hitem, hids⟩ :=
          ih (k + 1) (rects0 ++ [make_rect margin padding loc]) _ atlas2 rects ids atlas hA
        refine ⟨?_, ?_, ?_, ?_⟩
        · simp only [List.length_append, List.length_singleton] at hlen
          simp only [List.length_cons]
          omega
        · intro i hi
          rw [hpre i (by simp; omega), List.get?_append (by simpa using hi)]
        · intro i u hu
          cases i with
          | zero =>
            refine ⟨loc, by simpa using hloc, ?_⟩
            rw [Nat.add_zero, hpre rects0.length (by simp)]
            exact List.get?_concat_length _ _
          | succ j =>
            simp only [List.get?_cons_succ] at hu
            obtain ⟨loc', hloc', hrect'⟩ := hitem j u hu
            refine ⟨loc', by rw [show k + (j + 1) = k + 1 + j by omega]; exact hloc', ?_⟩
            rw [show rects0.length + (j + 1) =
              (rects0 ++ [make_rect margin padding loc]).length + j by simp; omega]
            exact hrect'
        · rw [hids]
          cases tid with
          | some iid => rw [collect_ids]; rfl
          | none => rw [collect_ids]; rfl

/-- Inversion of a successful `build`: the format resolved, the loop exited
successfully at some candidate, the layout's size is the `final_size` of
that candidate, and the layout's rectangles, the sources and the atlas are
the output of the assembly loop over the packer's placements. -/
theorem buildTA_ok_inv (packer : Packer) (convert : Converter) (fuel : Nat)
    (s : TextureAtlasSettings) (textures : List (Option Nat × Image))
    (l : TextureAtlasLayout) (src : List (Nat × Nat)) (atlas : Image)
    (hb : buildTA packer convert fuel s textures = some (.ok l src atlas)) :
    ∃ fmt cw ch pls tr,
      unified_format s textures = some fmt ∧
      search_loop (fun w h => packer (rect_specs s textures) w h)
        ((s.max_size.x + s.padding.x) - 2 * s.margin.x)
        ((s.max_size.y + s.padding.y) - 2 * s.margin.y)
        fuel s.min_size.x s.min_size.y = some (some (cw, ch, pls), tr) ∧
      l.size = ⟨(final_size s (!textures.isEmpty) cw ch).1,
        (final_size s (!textures.isEmpty) cw ch).2⟩ ∧
      assemble_go convert s.margin s.padding fmt
        (fun i =>
          match pls.get? i, (rect_specs s textures).get? i with
          | some xy, some wh => some ⟨xy.1, xy.2, wh.1, wh.2⟩
          | _, _ => none)
        textures 0 [] []
        (Image.zeroed (final_size s (!textures.isEmpty) cw ch).1
          (final_size s (!textures.isEmpty) cw ch).2 fmt) = some (l.textures, src, atlas) := by
  cases hu : unified_format s textures with
  | none => simp only [buildTA, hu] at hb; exact absurd hb (by simp)
  | some fmt =>
    simp only [buildTA, hu] at hb
    split at hb
    · exact absurd hb (by simp)
    · exact absurd hb (by simp)
    · rename_i cw ch pls tr heq
      split at hb
      · exact absurd hb (by simp)
      · rename_i trs tis atl heq2
        simp only [Option.some.injEq, BuildResult.ok.injEq] at hb
        obtain ⟨hl, hsrc, hatl⟩ := hb
        subst hl; subst hsrc; subst hatl
        exact ⟨fmt, cw, ch, pls, tr, rfl, heq, rfl, heq2⟩

/-! ### Theorems -/

/-- C1.  With `margin = (3, 5)`, `padding = (0, 0)`, `min_size = (4, 4)` and
one 2x2 image, `build` succeeds with the candidate `(4, 4)` and returns the
atlas size `(10, 10)`: the height received `2 * margin.x = 6`, not
`2 * margin.y = 10` as the claim states (which would give height `14`).
The code computes the height contribution from `margin.x` (and trims the
height by `padding.x`), contradicting the claim. -/
theorem c1_height_uses_margin_x :
    layout_of (buildTA vert_pack no_convert 10 c1_settings c1_images) =
      some ⟨⟨10, 10⟩, [⟨⟨3, 5⟩, ⟨5, 7⟩⟩]⟩ ∧
    c1_settings.margin.y = 5 ∧ (10 : Nat) ≠ 4 + 2 * 5 := by
  refine ⟨rfl, rfl, by decide⟩

/-- C2.  With `margin = (2, 3)` and one 1x1 image of byte `7` placed at
`(0, 0)`, the layout records the destination rectangle `(2,3)-(3,4)` (margin
included), but the copy step wrote the pixel at byte index `0` (the raw
packed position) and left byte index `3 * 5 + 2 = 17` — the position the
layout's rectangle points at — zero-filled.  The pixels do not land at
`margin + placement_position`, contradicting the claim. -/
theorem c2_copy_ignores_margin :
    layout_of c2_run = some ⟨⟨5, 5⟩, [⟨⟨2, 3⟩, ⟨3, 4⟩⟩]⟩ ∧
    (atlas_data_of c2_run).bind (fun d => d.get? (3 * 5 + 2)) = some 0 ∧
    (atlas_data_of c2_run).bind (fun d => d.get? 0) = some 7 := by
  refine ⟨rfl, rfl, rfl⟩

/-- C3 counterexample.  `min_size = (9, 9) ≤ max_size = (12, 12)`,
`margin = (2, 2)`, `padding = (5, 5)`, one 1x1 image: the build succeeds and
returns atlas size `(13, 13)`, strictly above `max_size` on both axes — the
clamp to `min_size` after the padding trim, followed by re-adding the
margin, pushes the size past the maximum. -/
theorem c3_size_exceeds_max :
    layout_of (buildTA vert_pack no_convert 10 c3_settings c3_images) =
      some ⟨⟨13, 13⟩, [⟨⟨2, 2⟩, ⟨3, 3⟩⟩]⟩ ∧
    c3_settings.max_size = ⟨12, 12⟩ ∧ ¬ (13 ≤ 12) := by
  refine ⟨rfl, rfl, by decide⟩

/-- C8 counterexample.  Two images registered with the same identifier `5`:
the identifier map of the successful build is `[(5, 1)]` — the first
registered image's identifier is mapped to index `1`, not to its own
insertion index `0` (`HashMap::insert` overwrites), so not every registered
image with an identifier maps to its insertion-order index. -/
theorem c8_duplicate_id_overwritten :
    sources_of (buildTA vert_pack no_convert 10 c8_settings c8_images) = some [(5, 1)] ∧
    (c8_images.get? 0).bind (fun t => t.1) = some 5 ∧
    map_lookup [(5, 1)] 5 = some 1 ∧ (1 : Nat) ≠ 0 := by
  refine ⟨rfl, rfl, rfl, by decide⟩

/-- When the loop exits (with or without a placement), `build` returns a
result. -/
theorem buildTA_isSome_of_loop (packer : Packer) (convert : Converter) (fuel : Nat)
    (settings : TextureAtlasSettings) (textures : List (Option Nat × Image))
    (fmt : TextureFormat) (hfmt : unified_format settings textures = some fmt)
    (hloop : (search_loop (fun w h => packer (rect_specs settings textures) w h)
      ((settings.max_size.x + settings.padding.x) - 2 * settings.margin.x)
      ((settings.max_size.y + settings.padding.y) - 2 * settings.margin.y)
      fuel settings.min_size.x settings.min_size.y).isSome) :
    (buildTA packer convert fuel settings textures).isSome := by
  obtain ⟨pr, hpr⟩ := Option.isSome_iff_exists.mp hloop
  obtain ⟨r, tr⟩ := pr
  cases r with
  | none => simp [buildTA, hfmt, hpr]
  | some c =>
    obtain ⟨cw, ch, pls⟩ := c
    simp only [buildTA, hfmt, hpr]
    split <;> rfl

/-- C4 counterexample.  `min_size = (0, 3)`, `max_size = (5, 3)`, no padding
or margin, one 1x1 image: the candidate width starts at `0`, packing a
1-wide rect into a 0-wide bin fails, and doubling keeps the width at `0`
while the height is already clamped at the maximum — the loop revisits the
state `(0, 3)` forever, `last_attempt` never becomes true, and `build`
never returns: the size-search loop does not terminate for every settings
value. -/
theorem c4_zero_min_never_terminates :
    ¬ build_terminates vert_pack no_convert c4_settings c4_images := by
  rintro ⟨fuel, hs⟩
  have hloop := search_loop_stuck
    (fun w h => vert_pack (rect_specs c4_settings c4_images) w h) 5 3 0 3
    (by decide) (by decide) (by decide) (by decide) (by decide)
  rw [buildTA_of_loop_none vert_pack no_convert fuel c4_settings c4_images fmt1 rfl
    (hloop fuel)] at hs
  simp at hs

/-- C4 (amended).  Provided both components of `min_size` are positive, the
size-search loop terminates: some fuel makes `build` return a result, and in
any run of the loop the attempt at exactly the (padding-adjusted) maximum
size is performed at most once.  (With a zero component the loop can run
forever, see the counterexample.) -/
theorem c4_terminates_of_positive_min (packer : Packer) (convert : Converter)
    (s : TextureAtlasSettings) (textures : List (Option Nat × Image))
    (h1 : 1 ≤ s.min_size.x) (h2 : 1 ≤ s.min_size.y) :
    build_terminates packer convert s textures ∧
    ∀ fuel r tr,
      search_loop (fun w h => packer (rect_specs s textures) w h)
        ((s.max_size.x + s.padding.x) - 2 * s.margin.x)
        ((s.max_size.y + s.padding.y) - 2 * s.margin.y)
        fuel s.min_size.x s.min_size.y = some (r, tr) →
      tr.count ((s.max_size.x + s.padding.x) - 2 * s.margin.x,
        (s.max_size.y + s.padding.y) - 2 * s.margin.y) ≤ 1 := by
  constructor
  · cases hu : unified_format s textures with
    | none => exact ⟨1, by simp [buildTA, hu]⟩
    | some fmt =>
      refine ⟨((s.max_size.x + s.padding.x) - 2 * s.margin.x) +
        ((s.max_size.y + s.padding.y) - 2 * s.margin.y) + 1, ?_⟩
      refine buildTA_isSome_of_loop packer convert _ s textures fmt hu ?_
      exact search_loop_total _ _ _ _ _ _ h1 h2 (by omega)
  · intro fuel r tr hs
    exact search_loop_max_once _ _ _ fuel _ _ r tr hs

/-- C4 witness. -/
theorem c4_terminates_witness :
    build_terminates vert_pack no_convert c2_settings c2_images ∧
    ∀ fuel r tr,
      search_loop (fun w h => vert_pack (rect_specs c2_settings c2_images) w h)
        ((c2_settings.max_size.x + c2_settings.padding.x) - 2 * c2_settings.margin.x)
        ((c2_settings.max_size.y + c2_settings.padding.y) - 2 * c2_settings.margin.y)
        fuel c2_settings.min_size.x c2_settings.min_size.y = some (r, tr) →
      tr.count ((c2_settings.max_size.x + c2_settings.padding.x) - 2 * c2_settings.margin.x,
        (c2_settings.max_size.y + c2_settings.padding.y) - 2 * c2_settings.margin.y) ≤ 1 :=
  c4_terminates_of_positive_min vert_pack no_convert c2_settings c2_images
    (by decide) (by decide)

/-- The column packer rejects a list whose head rect does not fit. -/
theorem vert_pack_go_head_fail (w h rw rh y : Nat) (rest : List RectSpec)
    (hc : ¬ (rw ≤ w ∧ y + rh ≤ h)) :
    vert_pack_go w h ((rw, rh) :: rest) y = none := by
  simp only [vert_pack_go, if_neg hc]

/-- C6 counterexample.  `min_size = (0, 4)`, `max_size = (3, 4)`, one 5x1
image: no candidate size within the maximum can hold the 5-wide rect (first
conjunct), yet `build` does not return `NotEnoughSpace` — it does not return
at all, because the candidate width is stuck at `0` and `last_attempt` never
fires. -/
theorem c6_zero_min_never_returns :
    (∀ w h, w ≤ 3 → h ≤ 4 →
      vert_pack (rect_specs c6_settings c6_images) w h = none) ∧
    ¬ build_terminates vert_pack no_convert c6_settings c6_images := by
  refine ⟨fun w h hw hh => vert_pack_go_head_fail w h 5 1 0 [] (by omega), ?_⟩
  rintro ⟨fuel, hs⟩
  have hloop := search_loop_stuck
    (fun w h => vert_pack (rect_specs c6_settings c6_images) w h) 3 4 0 4
    (by decide) (by decide) (by decide) (by decide) (by decide)
  rw [buildTA_of_loop_none vert_pack no_convert fuel c6_settings c6_images fmt1 rfl
    (hloop fuel)] at hs
  simp at hs

/-- C6 (amended).  Provided both components of `min_size` are positive, when
the format resolves and the packer rejects every candidate within the
(padding-adjusted) maximum, `build` returns the explicit error value
`NotEnoughSpace` — no panic, and the error result carries no atlas
buffer. -/
theorem c6_not_enough_space (packer : Packer) (convert : Converter)
    (s : TextureAtlasSettings) (textures : List (Option Nat × Image)) (fmt : TextureFormat)
    (h1 : 1 ≤ s.min_size.x) (h2 : 1 ≤ s.min_size.y)
    (hfmt : unified_format s textures = some fmt)
    (hfail : ∀ w h, w ≤ (s.max_size.x + s.padding.x) - 2 * s.margin.x →
      h ≤ (s.max_size.y + s.padding.y) - 2 * s.margin.y →
      packer (rect_specs s textures) w h = none) :
    ∃ fuel, buildTA packer convert fuel s textures = some (.err .NotEnoughSpace) := by
  refine ⟨((s.max_size.x + s.padding.x) - 2 * s.margin.x) +
    ((s.max_size.y + s.padding.y) - 2 * s.margin.y) + 1, ?_⟩
  have htot := search_loop_total (fun w h => packer (rect_specs s textures) w h)
    ((s.max_size.x + s.padding.x) - 2 * s.margin.x)
    ((s.max_size.y + s.padding.y) - 2 * s.margin.y)
    (((s.max_size.x + s.padding.x) - 2 * s.margin.x) +
      ((s.max_size.y + s.padding.y) - 2 * s.margin.y) + 1)
    s.min_size.x s.min_size.y h1 h2 (by omega)
  obtain ⟨⟨r, tr⟩, hpr⟩ := Option.isSome_iff_exists.mp htot
  have hr := search_loop_all_fail _ _ _ hfail _ _ _ _ _ hpr
  subst hr
  exact buildTA_of_loop_fail packer convert _ s textures fmt tr hfmt hpr

def c6w_settings : TextureAtlasSettings := ⟨⟨1, 1⟩, ⟨3, 3⟩, ⟨0, 0⟩, ⟨0, 0⟩, some fmt1⟩
def c6w_images : List (Option Nat × Image) := [(none, ⟨5, 1, fmt1, [1, 1, 1, 1, 1]⟩)]

/-- C6 witness. -/
theorem c6_not_enough_space_witness :
    ∃ fuel, buildTA vert_pack no_convert fuel c6w_settings c6w_images =
      some (.err .NotEnoughSpace) :=
  c6_not_enough_space vert_pack no_convert c6w_settings c6w_images fmt1
    (by decide) (by decide) rfl
    (by
      intro w h hw hh
      simp only [c6w_settings] at hw hh
      exact vert_pack_go_head_fail w h 5 1 0 [] (by omega))

/-- The format-unification step fails exactly when no forced format is set
and either no image is registered or some image's format differs from the
first image's. -/
theorem unified_format_eq_none_iff (s : TextureAtlasSettings)
    (textures : List (Option Nat × Image)) :
    unified_format s textures = none ↔
      s.convert_format = none ∧
        (textures = [] ∨
          ∃ t0 rest, textures = t0 :: rest ∧ ∃ t ∈ rest, t.2.format ≠ t0.2.format) := by
  cases hc : s.convert_format with
  | some f => simp [unified_format, hc]
  | none =>
    cases textures with
    | nil => simp [unified_format, hc]
    | cons t0 rest =>
      obtain ⟨id0, img0⟩ := t0
      simp only [unified_format, hc]
      by_cases hall : rest.all (fun t => t.2.format = img0.format) = true
      · rw [if_pos hall]
        simp only [List.all_eq_true, decide_eq_true_eq] at hall
        constructor
        · intro h; exact absurd h (by simp)
        · rintro ⟨-, h | ⟨t0', rest', heq, t, ht, hne⟩⟩
          · exact absurd h (by simp)
          · injection heq with h1 h2
            subst h1; subst h2
            exact absurd (hall t ht) hne
      · rw [if_neg hall]
        simp only [List.all_eq_true, decide_eq_true_eq] at hall
        push_neg at hall
        obtain ⟨t, ht, hne⟩ := hall
        exact ⟨fun _ => ⟨by trivial, Or.inr ⟨(id0, img0), rest, rfl, t, ht, hne⟩⟩, fun _ => rfl⟩

/-- C5.  `build` returns `WrongFormat` exactly when no forced output format
is set and either zero images are registered or some registered image's
format differs from the first one's; with a forced format set the left side
is false for every input.  The equivalence holds for every fuel, including
zero fuel (under which no packing attempt can run), so the check precedes
any packing attempt; the error value carries no atlas buffer. -/
theorem c5_wrong_format_iff (packer : Packer) (convert : Converter) (fuel : Nat)
    (s : TextureAtlasSettings) (textures : List (Option Nat × Image)) :
    buildTA packer convert fuel s textures = some (.err .WrongFormat) ↔
      s.convert_format = none ∧
        (textures = [] ∨
          ∃ t0 rest, textures = t0 :: rest ∧ ∃ t ∈ rest, t.2.format ≠ t0.2.format) := by
  rw [← unified_format_eq_none_iff s textures]
  cases hu : unified_format s textures with
  | none => simp [buildTA, hu]
  | some fmt =>
    simp only [buildTA, hu]
    constructor
    · intro h
      exfalso
      split at h
      · exact absurd h (by simp)
      · exact absurd h (by simp)
      · split at h <;> simp at h
    · intro h
      exact absurd h (by simp)

/-- If the packer accepts the first candidate the loop tries, a run of the
loop either fails outright (guard) or succeeds at exactly that candidate. -/
theorem search_loop_first_fit (pack : Nat → Nat → Option (List Placement))
    (maxW maxH fuel w h : Nat) (locs0 : List Placement) (hp : pack w h = some locs0)
    (r : Option (Nat × Nat × List Placement)) (tr : List (Nat × Nat))
    (hs : search_loop pack maxW maxH fuel w h = some (r, tr)) :
    r = none ∨ r = some (w, h, locs0) := by
  cases fuel with
  | zero => simp [search_loop] at hs
  | succ n =>
    rw [search_loop] at hs
    by_cases hg : w > maxW ∨ h > maxH
    · rw [if_pos hg] at hs
      simp only [Option.some.injEq, Prod.mk.injEq] at hs
      exact Or.inl hs.1.symm
    · rw [if_neg hg] at hs
      rw [hp] at hs
      have hs2 : (some (some (w, h, locs0), [(w, h)]) :
          Option (Option (Nat × Nat × List Placement) × List (Nat × Nat))) = some (r, tr) := hs
      simp only [Option.some.injEq, Prod.mk.injEq] at hs2
      exact Or.inr hs2.1.symm

theorem final_size_nonempty (s : TextureAtlasSettings) (cw ch : Nat) :
    final_size s true cw ch =
      (max (cw - s.padding.x) s.min_size.x + 2 * s.margin.x,
        max (ch - s.padding.x) s.min_size.y + 2 * s.margin.x) := rfl

theorem final_size_empty (s : TextureAtlasSettings) (cw ch : Nat) :
    final_size s false cw ch = (cw + 2 * s.margin.x, ch + 2 * s.margin.x) := rfl

/-- `make_rect` on a rect inflated by exactly `padding` subtracts the
padding back out: the stored rectangle's size is the un-inflated size. -/
theorem make_rect_inflated (margin padding : UVec2) (x y w h : Nat) :
    make_rect margin padding ⟨x, y, w + padding.x, h + padding.y⟩ =
      ⟨⟨margin.x + x, margin.y + y⟩, ⟨margin.x + x + w, margin.y + y + h⟩⟩ := by
  dsimp only [make_rect]
  have h1 : margin.x + x + (w + padding.x) - padding.x = margin.x + x + w := by omega
  have h2 : margin.y + y + (h + padding.y) - padding.y = margin.y + y + h := by omega
  rw [h1, h2]

/-- C7.  In every successful build, the layout's rectangle for the `i`-th
registered image is `min = margin + placement_position` and
`max = min + inflated_size - padding`, which — the rect having been inflated
by exactly `padding` — equals `min + (image_width, image_height)`: the
reported rectangle's size is the source image's size and padding does not
appear in it. -/
theorem c7_dest_rect (packer : Packer) (convert : Converter) (fuel : Nat)
    (s : TextureAtlasSettings) (textures : List (Option Nat × Image))
    (l : TextureAtlasLayout) (src : List (Nat × Nat)) (atlas : Image)
    (hb : buildTA packer convert fuel s textures = some (.ok l src atlas))
    (i : Nat) (t : Option Nat × Image) (ht : textures.get? i = some t) :
    ∃ x y, l.textures.get? i =
      some ⟨⟨s.margin.x + x, s.margin.y + y⟩,
        ⟨s.margin.x + x + t.2.width, s.margin.y + y + t.2.height⟩⟩ := by
  obtain ⟨fmt, cw, ch, pls, tr, -, -, -, hasm⟩ :=
    buildTA_ok_inv packer convert fuel s textures l src atlas hb
  obtain ⟨-, -, hitem, -⟩ := assemble_go_spec convert s.margin s.padding fmt _
    textures 0 [] [] _ _ _ _ hasm
  obtain ⟨loc, hloc, hrect⟩ := hitem i t ht
  rw [Nat.zero_add] at hloc
  simp only [List.length_nil, Nat.zero_add] at hrect
  cases hpl : pls.get? i with
  | none =>
    rw [hpl] at hloc
    exact absurd (show (none : Option PackedLocation) = some loc from hloc) (by simp)
  | some xy =>
    rw [hpl] at hloc
    cases hrs : (rect_specs s textures).get? i with
    | none =>
      rw [hrs] at hloc
      exact absurd (show (none : Option PackedLocation) = some loc from hloc) (by simp)
    | some wh =>
      rw [hrs] at hloc
      obtain ⟨w1, w2⟩ := wh
      have hwh : (w1, w2) = (t.2.width + s.padding.x, t.2.height + s.padding.y) := by
        rw [rect_specs, List.get?_map, ht] at hrs
        simp only [Option.map_some', Option.some.injEq] at hrs
        exact hrs.symm
      injection hwh with hw1 hw2
      subst hw1; subst hw2
      have hloc3 : (⟨xy.1, xy.2, t.2.width + s.padding.x, t.2.height + s.padding.y⟩ :
          PackedLocation) = loc :=
        Option.some.inj (show some _ = some loc from hloc)
      refine ⟨xy.1, xy.2, ?_⟩
      rw [hrect, ← hloc3, make_rect_inflated]

def c7w_layout : TextureAtlasLayout := ⟨⟨5, 5⟩, [⟨⟨2, 3⟩, ⟨3, 4⟩⟩]⟩
def c7w_atlas : Image := ⟨5, 5, fmt1, 7 :: List.replicate 24 0⟩

/-- C7 witness. -/
theorem c7_dest_rect_witness :
    ∃ x y, c7w_layout.textures.get? 0 =
      some ⟨⟨c2_settings.margin.x + x, c2_settings.margin.y + y⟩,
        ⟨c2_settings.margin.x + x + 1, c2_settings.margin.y + y + 1⟩⟩ :=
  c7_dest_rect vert_pack no_convert 10 c2_settings c2_images c7w_layout [] c7w_atlas
    (by decide) 0 (none, ⟨1, 1, fmt1, [7]⟩) rfl

/-- C8 (amended).  In every successful build the layout has exactly one
rectangle per registered image (the `i`-th derived from the `i`-th image and
its placement, see the C7 theorem), and looking an identifier up in the
sources map yields exactly the insertion index of the **last** registered
image bearing that identifier (`HashMap::insert` overwrites duplicates) —
for builds whose identifiers are distinct, each image's own index. -/
theorem c8_order_and_sources (packer : Packer) (convert : Converter) (fuel : Nat)
    (s : TextureAtlasSettings) (textures : List (Option Nat × Image))
    (l : TextureAtlasLayout) (src : List (Nat × Nat)) (atlas : Image)
    (hb : buildTA packer convert fuel s textures = some (.ok l src atlas)) :
    l.textures.length = textures.length ∧
    ∀ key, map_lookup src key = last_idx key textures := by
  obtain ⟨fmt, cw, ch, pls, tr, -, -, -, hasm⟩ :=
    buildTA_ok_inv packer convert fuel s textures l src atlas hb
  obtain ⟨hlen, -, -, hids⟩ := assemble_go_spec convert s.margin s.padding fmt _
    textures 0 [] [] _ _ _ _ hasm
  refine ⟨by simpa using hlen, fun key => ?_⟩
  rw [hids, map_lookup_collect_ids]
  cases hl : last_idx key textures with
  | some j => simp
  | none => rfl

/-- C8 witness. -/
theorem c8_order_and_sources_witness :
    c7w_layout.textures.length = c2_images.length ∧
    ∀ key, map_lookup [] key = last_idx key c2_images :=
  c8_order_and_sources vert_pack no_convert 10 c2_settings c2_images c7w_layout [] c7w_atlas
    (by decide)

/-- C3 (amended).  Provided margin and padding are symmetric
(`margin.x = margin.y`, `padding.x = padding.y` — otherwise the height
computation's use of the x components skews the result) and
`min_size + 2 * margin ≤ max_size` componentwise (otherwise the clamp to
`min_size` plus the re-added margin can exceed the maximum, see the
counterexample), every successful build returns an atlas size within
`[min_size, max_size]` componentwise; the lower bound holds also for zero
registered images. -/
theorem c3_size_bounds (packer : Packer) (convert : Converter) (fuel : Nat)
    (s : TextureAtlasSettings) (textures : List (Option Nat × Image))
    (l : TextureAtlasLayout) (src : List (Nat × Nat)) (atlas : Image)
    (hpad : s.padding.x = s.padding.y) (hmar : s.margin.x = s.margin.y)
    (hx : s.min_size.x + 2 * s.margin.x ≤ s.max_size.x)
    (hy : s.min_size.y + 2 * s.margin.y ≤ s.max_size.y)
    (hemp : ∀ w h, packer [] w h = some [])
    (hb : buildTA packer convert fuel s textures = some (.ok l src atlas)) :
    s.min_size.x ≤ l.size.x ∧ s.min_size.y ≤ l.size.y ∧
    l.size.x ≤ s.max_size.x ∧ l.size.y ≤ s.max_size.y := by
  obtain ⟨fmt, cw, ch, pls, tr, hu, hloop, hsz, hasm⟩ :=
    buildTA_ok_inv packer convert fuel s textures l src atlas hb
  obtain ⟨hwle, hhle, hcwmax, hchmax, hpack⟩ :=
    search_loop_success_bounds _ _ _ fuel _ _ _ _ _ _ hloop
  have hsx : l.size.x = (final_size s (!textures.isEmpty) cw ch).1 := by rw [hsz]
  have hsy : l.size.y = (final_size s (!textures.isEmpty) cw ch).2 := by rw [hsz]
  cases htex : textures with
  | nil =>
    subst htex
    rw [show (!(List.isEmpty ([] : List (Option Nat × Image)))) = false from rfl,
      final_size_empty] at hsx hsy
    rcases search_loop_first_fit _ _ _ fuel _ _ [] (hemp _ _) _ _ hloop with hfa | heq
    · exact absurd hfa (by simp)
    · simp only [Option.some.injEq, Prod.mk.injEq] at heq
      obtain ⟨hcw, hch, -⟩ := heq
      subst hcw; subst hch
      refine ⟨by omega, by omega, by omega, by omega⟩
  | cons t0 rest =>
    subst htex
    rw [show (!(List.isEmpty (t0 :: rest))) = true from rfl,
      final_size_nonempty] at hsx hsy
    refine ⟨by omega, by omega, by omega, by omega⟩

def c3w_settings : TextureAtlasSettings := ⟨⟨2, 2⟩, ⟨10, 10⟩, ⟨1, 1⟩, ⟨1, 1⟩, some fmt1⟩
def c3w_images : List (Option Nat × Image) := [(none, ⟨1, 1, fmt1, [5]⟩)]
def c3w_layout : TextureAtlasLayout := ⟨⟨4, 4⟩, [⟨⟨1, 1⟩, ⟨2, 2⟩⟩]⟩
def c3w_atlas : Image := ⟨4, 4, fmt1, 5 :: List.replicate 15 0⟩

/-- C3 witness. -/
theorem c3_size_bounds_witness :
    c3w_settings.min_size.x ≤ c3w_layout.size.x ∧
    c3w_settings.min_size.y ≤ c3w_layout.size.y ∧
    c3w_layout.size.x ≤ c3w_settings.max_size.x ∧
    c3w_layout.size.y ≤ c3w_settings.max_size.y :=
  c3_size_bounds vert_pack no_convert 10 c3w_settings c3w_images c3w_layout [] c3w_atlas
    rfl rfl (by decide) (by decide) (fun _ _ => rfl) (by decide)

/-- A second one-byte-per-pixel format, distinct from `fmt1`. -/
def fmt2 : TextureFormat := ⟨1, 1⟩

def c9_settings : TextureAtlasSettings := ⟨⟨1, 1⟩, ⟨10, 10⟩, ⟨0, 0⟩, ⟨0, 0⟩, some fmt2⟩
def c9_images : List (Option Nat × Image) := [(none, ⟨1, 1, fmt1, [7]⟩)]

/-- C9.  When an image's format differs from the unified format and the
conversion is unsupported, the copy step skips that image: the atlas buffer
is returned unchanged (so its destination region keeps its zero fill) and no
failure is signalled — the `none` outcome of `convert` is absorbed into
`some atlas`, never into an error or panic of the build. -/
theorem c9_unconvertible_skipped (convert : Converter) (padding : UVec2)
    (atlas_texture texture : Image) (packed_location : PackedLocation)
    (convert_format : TextureFormat)
    (hconv : convert texture convert_format = none)
    (hfmt : convert_format ≠ texture.format) :
    copy_converted_texture convert padding atlas_texture texture packed_location
      convert_format = some atlas_texture := by
  simp only [copy_converted_texture, if_neg hfmt, hconv]

/-- C9 witness, including a whole-build run: a build forced to `fmt2` whose
single registered image is in `fmt1` and cannot be converted still succeeds,
with the image's destination region left zero-filled. -/
theorem c9_unconvertible_skipped_witness :
    copy_converted_texture no_convert ⟨0, 0⟩ (Image.zeroed 1 1 fmt2) ⟨1, 1, fmt1, [7]⟩
      ⟨0, 0, 1, 1⟩ fmt2 = some (Image.zeroed 1 1 fmt2) ∧
    buildTA vert_pack no_convert 10 c9_settings c9_images =
      some (.ok ⟨⟨1, 1⟩, [⟨⟨0, 0⟩, ⟨1, 1⟩⟩]⟩ [] ⟨1, 1, fmt2, [0]⟩) :=
  ⟨c9_unconvertible_skipped no_convert ⟨0, 0⟩ (Image.zeroed 1 1 fmt2) ⟨1, 1, fmt1, [7]⟩
      ⟨0, 0, 1, 1⟩ fmt2 rfl (by decide), by decide⟩

/-- C10.  `min_size = (4, 4)`, `max_size = (8, 9)`, `padding = (2, 0)`,
`margin = (0, 0)`, three 5x3 images (inflated to 7x3): packing succeeds at
candidate `(10, 9)` with the rects stacked at `(0,0)`, `(0,3)`, `(0,6)` (the
only possible arrangement: two 7-wide rects cannot sit side by side in a
10-wide bin), the height is then trimmed by `padding.x = 2` to `7`, and the
copy of the third image writes rows `6`, `7`, `8` — rows `7` and `8` are
out of bounds of the `8 * 7`-byte atlas buffer, an out-of-bounds slice
index, i.e. a Rust panic. -/
theorem c10_copy_out_of_bounds :
    buildTA vert_pack no_convert 10 c10_settings c10_images = some .panicked := by
  rfl

end Atlas
